import Mathlib

/-!
# Verification of the ChefApp recipe-generation pipeline

Shallow embedding of `src/my-recipe-app/src/chefApp.jsx` (and, for the
diagnostic-message extraction, the second variant `src/unnamed/part_000`).

The embedding covers:
* a JSON value type and a parser standing in for the host `JSON.parse`
  (integer-only numbers; the payloads relevant here use only objects,
  arrays, strings, integers, booleans and null);
* JavaScript truthiness, member access and string coercion as used by the
  source;
* `fetchWithRetry` as a function over a stream of per-attempt network
  outcomes, recording the result, the number of `fetch` calls and the
  backoff delays (in milliseconds, jitter supplied as a rational in `[0,1)`);
* the prompt builder, the response validation inside `generateRecipe`, and
  the `generateRecipe` state transition over the component's state slots.
-/

/-- JSON values.  Numbers are modelled as integers: every number appearing in
the payloads of this development is an integer. -/
inductive Json where
  | null
  | bool (b : Bool)
  | num (n : Int)
  | str (s : String)
  | arr (elems : List Json)
  | obj (fields : List (String × Json))
deriving Repr

/-- Field lookup on a parsed JSON object.  `JSON.parse` keeps the *last*
occurrence of a duplicated key, so later fields win. -/
def lookupField : List (String × Json) → String → Option Json
  | [], _ => none
  | (k, v) :: rest, key =>
    match lookupField rest key with
    | some v2 => some v2
    | none => if k = key then some v else none

/-- Property access `j[key]` as it behaves on JSON data: objects yield the
field (or `none` for JS `undefined`), every other value has no such
property. -/
def Json.field? : Json → String → Option Json
  | .obj fs, key => lookupField fs key
  | _, _ => none

/-- JavaScript truthiness of a JSON value. -/
def truthy : Json → Bool
  | .null => false
  | .bool b => b
  | .num n => n != 0
  | .str s => s != ""
  | .arr _ => true
  | .obj _ => true

/-- Plain (non-optional) JavaScript member access `j.key`: throws a
`TypeError` (`Except.error ()`) when `j` is `null`, yields `undefined`
(`Option.none`) when the property is missing or the receiver is a
primitive. -/
def getMember : Json → String → Except Unit (Option Json)
  | .null, _ => .error ()
  | .obj fs, key => .ok (lookupField fs key)
  | _, _ => .ok none

/-- Optional-chaining member access `j?.key`, lifted over an
`undefined`/`null`-like `Option`. -/
def jget (o : Option Json) (key : String) : Option Json :=
  o.bind fun j => Json.field? j key

/-- Optional-chaining index access `j?.[0]`. -/
def jindex0 (o : Option Json) : Option Json :=
  o.bind fun j =>
    match j with
    | .arr (x :: _) => some x
    | _ => none

/-- JavaScript string coercion of a JSON value, as used by template
interpolation (arrays join their elements with commas, objects print as
`[object Object]`). -/
def jsToString : Json → String
  | .null => "null"
  | .bool true => "true"
  | .bool false => "false"
  | .num n => toString n
  | .str s => s
  | .arr xs => String.intercalate "," (xs.attach.map fun x => jsToString x.1)
  | .obj _ => "[object Object]"
decreasing_by
  have := List.sizeOf_lt_of_mem x.2
  simp_wf
  omega

/-- Whitespace skipping for the JSON grammar. -/
def skipWs : List Char → List Char
  | c :: cs =>
    if c = ' ' ∨ c = '\n' ∨ c = '\t' ∨ c = '\r' then skipWs cs else c :: cs
  | [] => []

/-- Translate a JSON string escape. `\u` sequences do not occur in the
payloads considered here. -/
def unescape (c : Char) : Char :=
  if c = 'n' then '\n'
  else if c = 't' then '\t'
  else if c = 'r' then '\r'
  else if c = 'b' then Char.ofNat 8
  else if c = 'f' then Char.ofNat 12
  else c

/-- Scan a JSON string body up to the closing quote, returning the decoded
characters and the remaining input. -/
def parseStrAux : List Char → Option (List Char × List Char)
  | [] => none
  | '\\' :: c :: cs => (parseStrAux cs).map fun p => (unescape c :: p.1, p.2)
  | c :: cs =>
    if c = '"' then some ([], cs)
    else (parseStrAux cs).map fun p => (c :: p.1, p.2)

/-- Numeric value of a decimal digit character. -/
def digitVal (c : Char) : Nat := c.toNat - 48

/-- Accumulate a run of decimal digits. -/
def digitsToNat : List Char → Nat → Nat
  | [], acc => acc
  | c :: cs, acc => digitsToNat cs (acc * 10 + digitVal c)

/-- Parse an (integer) JSON number. -/
def parseNumber : List Char → Option (Json × List Char)
  | '-' :: cs =>
    match cs.span (·.isDigit) with
    | ([], _) => none
    | (ds, rest) => some (.num (-(digitsToNat ds 0 : Int)), rest)
  | cs =>
    match cs.span (·.isDigit) with
    | ([], _) => none
    | (ds, rest) => some (.num (digitsToNat ds 0), rest)

mutual

/-- Fuel-indexed recursive-descent parser for a single JSON value. -/
def parseVal : Nat → List Char → Option (Json × List Char)
  | 0, _ => none
  | fuel + 1, input =>
    match skipWs input with
    | [] => none
    | c :: cs =>
      if c = '"' then
        (parseStrAux cs).map fun p => (Json.str (String.mk p.1), p.2)
      else if c = '[' then
        match skipWs cs with
        | ']' :: rest => some (Json.arr [], rest)
        | cs2 => (parseElems fuel cs2).map fun p => (Json.arr p.1, p.2)
      else if c = '\x7b' then
        match skipWs cs with
        | '\x7d' :: rest => some (Json.obj [], rest)
        | cs2 => (parseFields fuel cs2).map fun p => (Json.obj p.1, p.2)
      else if c = 't' then
        match cs with
        | 'r' :: 'u' :: 'e' :: rest => some (Json.bool true, rest)
        | _ => none
      else if c = 'f' then
        match cs with
        | 'a' :: 'l' :: 's' :: 'e' :: rest => some (Json.bool false, rest)
        | _ => none
      else if c = 'n' then
        match cs with
        | 'u' :: 'l' :: 'l' :: rest => some (Json.null, rest)
        | _ => none
      else parseNumber (c :: cs)

/-- Parse the non-empty element list of a JSON array (after `[`). -/
def parseElems : Nat → List Char → Option (List Json × List Char)
  | 0, _ => none
  | fuel + 1, input =>
    match parseVal fuel input with
    | none => none
    | some (v, rest) =>
      match skipWs rest with
      | ',' :: rest2 => (parseElems fuel (skipWs rest2)).map fun p => (v :: p.1, p.2)
      | ']' :: rest2 => some ([v], rest2)
      | _ => none

/-- Parse the non-empty field list of a JSON object (after `\x7b`). -/
def parseFields : Nat → List Char → Option (List (String × Json) × List Char)
  | 0, _ => none
  | fuel + 1, input =>
    match skipWs input with
    | [] => none
    | c :: cs =>
      if c = '"' then
        match parseStrAux cs with
        | none => none
        | some (key, rest) =>
          match skipWs rest with
          | ':' :: rest2 =>
            match parseVal fuel (skipWs rest2) with
            | none => none
            | some (v, rest3) =>
              match skipWs rest3 with
              | ',' :: rest4 =>
                (parseFields fuel (skipWs rest4)).map fun p =>
                  ((String.mk key, v) :: p.1, p.2)
              | '\x7d' :: rest4 => some ([(String.mk key, v)], rest4)
              | _ => none
          | _ => none
      else none

end

/-- The host `JSON.parse`: parse a complete JSON document, rejecting
trailing non-whitespace (a failing parse models the thrown
`SyntaxError`). -/
def jsonParse (s : String) : Option Json :=
  match parseVal (2 * s.length + 4) s.data with
  | some (v, rest) => if (skipWs rest).isEmpty then some v else none
  | none => none

/-! ## ResilientTransport: `fetchWithRetry` (`chefApp.jsx`, lines 38-59) -/

/-- Outcome of one `fetch` attempt: either the promise rejects with a
network-level error, or it resolves with a response carrying an HTTP status
and a body text. -/
inductive AttemptOutcome where
  | networkFailure (msg : String)
  | response (status : Nat) (body : String)
deriving DecidableEq, Repr

/-- `Response.ok`: status in the 2xx range. -/
def responseOk (status : Nat) : Bool := 200 ≤ status && status < 300

namespace ChefApp

/-- The error (if any) thrown inside the `try` block for one attempt of
`fetchWithRetry` in `chefApp.jsx`: rejected fetches propagate their message,
a non-ok response with status 400 throws the dedicated bad-request message,
any other non-ok response throws the generic status message. -/
def attemptError : AttemptOutcome → Option String
  | .networkFailure msg => some msg
  | .response status _ =>
    if responseOk status then none
    else if status = 400 then some "Bad Request: Invalid input to the API."
    else some ("HTTP error! status: " ++ toString status)

/-- Observable trace of one `fetchWithRetry` run: the returned response or
thrown error message, the number of `fetch` calls made, and the backoff
delays actually awaited, in milliseconds. -/
structure RetryTrace where
  result : Except String AttemptOutcome
  calls : Nat
  waits : List ℚ
deriving Repr

/-- The message of the error thrown after the loop exhausts `maxRetries`
attempts.  (`lastError` is `none` only when `maxRetries = 0`, where the
JavaScript would instead fail reading `.message` of `undefined`; every
theorem below uses `maxRetries ≥ 1`.) -/
def exhaustMsg (maxRetries : Nat) (lastError : Option String) : String :=
  "API call failed after " ++ toString maxRetries ++ " attempts: " ++
    lastError.getD "undefined"

/-- The retry loop of `fetchWithRetry`.  `o j` is the outcome of the `j`-th
`fetch` call, `rand j` the value of `Math.random()` for attempt `j`
(in `[0,1)`), `remaining = maxRetries - i` the number of loop iterations
left, `i` the zero-based attempt index.  The delay
`Math.pow(2, i) * 1000 + Math.random() * 1000` is awaited only when
`i < maxRetries - 1`. -/
def fetchGo (o : Nat → AttemptOutcome) (rand : Nat → ℚ) (maxRetries : Nat) :
    Nat → Nat → Option String → RetryTrace
  | 0, _, lastError => ⟨.error (exhaustMsg maxRetries lastError), 0, []⟩
  | remaining + 1, i, _ =>
    match attemptError (o i) with
    | none => ⟨.ok (o i), 1, []⟩
    | some msg =>
      let delay : ℚ := 2 ^ i * 1000 + rand i * 1000
      let rest := fetchGo o rand maxRetries remaining (i + 1) (some msg)
      if i < maxRetries - 1 then
        ⟨rest.result, rest.calls + 1, delay :: rest.waits⟩
      else
        ⟨rest.result, rest.calls + 1, rest.waits⟩

/-- `fetchWithRetry(url, options, maxRetries)` from `chefApp.jsx`, as a
function of the per-attempt outcomes and the jitter stream. -/
def fetchWithRetry (o : Nat → AttemptOutcome) (rand : Nat → ℚ)
    (maxRetries : Nat) : RetryTrace :=
  fetchGo o rand maxRetries maxRetries 0 none

end ChefApp

/-! ## Diagnostic-message extraction (`part_000`, lines 43-55) -/

namespace Part000

/-- The initial `errorMessage` value for a non-ok response. -/
def genericMessage (status : Nat) : String :=
  "HTTP error! status: " ++ toString status

/-- The `catch (e)` fallback of the message-extraction block: use the raw
body text when non-empty, else keep the generic message. -/
def textFallback (status : Nat) (errorText : String) : String :=
  if errorText ≠ "" then
    "API Error: " ++ errorText ++ " (" ++ toString status ++ ")"
  else genericMessage status

/-- The message of the error thrown for a non-ok response in the
`fetchWithRetry` of `part_000`: start from the generic status message;
if the body parses as JSON and `errorJson.error && errorJson.error.message`
is truthy, use the envelope message; if parsing (or the member access on a
parsed `null`) throws, fall back to the raw body text when it is
non-empty. -/
def attemptErrorMessage (status : Nat) (errorText : String) : String :=
  match jsonParse errorText with
  | none => textFallback status errorText
  | some errorJson =>
    match getMember errorJson "error" with
    | .error _ => textFallback status errorText
    | .ok none => genericMessage status
    | .ok (some errVal) =>
      if truthy errVal then
        match getMember errVal "message" with
        | .error _ => textFallback status errorText
        | .ok none => genericMessage status
        | .ok (some msgVal) =>
          if truthy msgVal then
            "API Error: " ++ jsToString msgVal ++ " (" ++ toString status ++ ")"
          else genericMessage status
      else genericMessage status

end Part000

/-! ## RequestBuilder: the prompt inside `generateRecipe` (lines 85-91) -/

namespace ChefApp

/-- The form answers (`useState` initial value: empty strings, `diet`
`"veg"`, `fatType` `"oil"`). -/
structure Answers where
  ingredients : String
  diet : String
  fatType : String
  allergies : String
  specialRequest : String
deriving DecidableEq, Repr

/-- JavaScript `s || d` for strings: the empty string is falsy. -/
def orDefault (s d : String) : String := if s = "" then d else s

/-- Default phrase substituted for empty `ingredients`. -/
def ingredientsDefault : String := "I have no specific ingredients, be creative."

/-- Default phrase substituted for empty `allergies`. -/
def allergiesDefault : String := "None, ensure safety."

/-- Default phrase substituted for empty `specialRequest`. -/
def specialRequestDefault : String := "Make it simple and delicious."

/-- Fixed prompt fragment before the ingredients interpolation. -/
def queryHead : String :=
  "Generate a single, unique food recipe based on the following strict criteria:\n- Main Ingredients: "

/-- Fixed prompt fragment before the dietary-type interpolation. -/
def queryDiet : String := "\n- Dietary Type: "

/-- Fixed prompt fragment before the cooking-fat interpolation. -/
def queryFat1 : String := "\n- Cooking Fat: Use "

/-- Fixed prompt fragment between the cooking-fat and allergies
interpolations. -/
def queryFat2 : String := " exclusively.\n- Allergies to Avoid: "

/-- Fixed prompt fragment before the special-request interpolation. -/
def querySpecial : String := "\n- Special Request/Style: "

/-- Fixed prompt tail. -/
def queryTail : String :=
  "\nThe entire response MUST be a single JSON object conforming to the provided schema. DO NOT include any text outside the JSON structure."

/-- The dietary-type phrase: `answers.diet === 'veg' ? 'Strictly Vegetarian' : 'Non-Vegetarian'`. -/
def dietPhrase (a : Answers) : String :=
  if a.diet = "veg" then "Strictly Vegetarian" else "Non-Vegetarian"

/-- The `userQuery` template literal of `generateRecipe`. -/
def userQuery (a : Answers) : String :=
  queryHead ++ orDefault a.ingredients ingredientsDefault ++
  queryDiet ++ dietPhrase a ++
  queryFat1 ++ a.fatType ++ queryFat2 ++ orDefault a.allergies allergiesDefault ++
  querySpecial ++ orDefault a.specialRequest specialRequestDefault ++
  queryTail

end ChefApp

/-! ## ResponseValidator: `generateRecipe` lines 113-127 -/

namespace ChefApp

/-- Stand-in for the message of the host `TypeError` raised by a member
access on `null`; its exact text is host-defined and no theorem depends on
it. -/
def typeErrorMessage : String := "TypeError: cannot read properties of null"

/-- Stand-in for the message of the host `SyntaxError` raised by
`JSON.parse`; its exact text is host-defined and no theorem depends on
it. -/
def syntaxErrorMessage : String := "SyntaxError: unexpected token in JSON"

/-- The value of `result.candidates?.[0]?.content?.parts?.[0]?.text`.
The first access `result.candidates` is a plain member access (it throws on
a `null` result); every later step is optional chaining. -/
def candidatesTextPath (result : Json) : Except Unit (Option Json) :=
  match getMember result "candidates" with
  | .error e => .error e
  | .ok c? =>
    .ok (jget (jindex0 (jget (jget (jindex0 c?) "content") "parts")) "text")

/-- Default message for a response missing the generated text. -/
def malformedDefault : String :=
  "Received an empty or malformed response from the AI."

/-- `result.error?.message || "Received an empty or malformed response from the AI."`
(evaluated only on a non-`null` result). -/
def malformedMessage (result : Json) : String :=
  match jget (Json.field? result "error") "message" with
  | some v => if truthy v then jsToString v else malformedDefault
  | none => malformedDefault

/-- Message thrown when the parsed recipe fails the core-field check. -/
def missingCoreMsg : String := "Generated JSON is missing core recipe fields."

/-- `Array.isArray` on a possibly-`undefined` value. -/
def jsIsArray : Option Json → Bool
  | some (.arr _) => true
  | _ => false

/-- The check
`if (!parsedRecipe.recipeName || !Array.isArray(parsedRecipe.ingredients)) throw ...`
followed by `setRecipe(parsedRecipe)`: the accepted value is the whole
parsed payload, unmodified. -/
def validateParsed (parsed : Json) : Except String Json :=
  match getMember parsed "recipeName" with
  | .error _ => .error typeErrorMessage
  | .ok rn? =>
    match getMember parsed "ingredients" with
    | .error _ => .error typeErrorMessage
    | .ok ing? =>
      if !(rn?.elim false truthy) || !(jsIsArray ing?) then .error missingCoreMsg
      else .ok parsed

/-- Lines 113-127 of `generateRecipe`: extract the generated text from the
provider envelope (falsy text, including an absent path, raises the
malformed-response error), parse it as JSON, and run the core-field
check. -/
def validateResponse (result : Json) : Except String Json :=
  match candidatesTextPath result with
  | .error _ => .error typeErrorMessage
  | .ok none => .error (malformedMessage result)
  | .ok (some tv) =>
    if truthy tv then
      match jsonParse (jsToString tv) with
      | none => .error syntaxErrorMessage
      | some parsed => validateParsed parsed
    else .error (malformedMessage result)

end ChefApp

/-! ## GenerationController: the `App` state slots and `generateRecipe` -/

namespace ChefApp

/-- The `useState` slots of `App` that `generateRecipe` reads or writes. -/
structure AppState where
  answers : Answers
  recipe : Option Json
  isLoading : Bool
  error : Option String
deriving Repr

/-- The environment a single `generateRecipe` run executes against: the
per-attempt fetch outcomes, the jitter stream, and the parsed body
(`await response.json()`) of the successful response, if one is reached. -/
structure Env where
  outcomes : Nat → AttemptOutcome
  rand : Nat → ℚ
  successBody : Json

/-- Observable effect of one completed `generateRecipe` run: the final
state, the prompt sent, and the number of network calls made. -/
structure RunResult where
  state : AppState
  prompt : String
  calls : Nat

/-- The `setError` message template of the `catch` block. -/
def failureBanner (msg : String) : String :=
  "Failed to generate recipe: " ++ msg ++ ". Please refine your input and try again."

/-- The state right after `setError(null); setIsLoading(true); setRecipe(null)`
— before any network activity. -/
def preNetworkState (s : AppState) : AppState :=
  { s with error := none, isLoading := true, recipe := none }

/-- One completed run of `generateRecipe` (lines 79-135): clear the slots,
build the prompt, run `fetchWithRetry` with `maxRetries = 5`, validate a
successful response, and set `recipe` on success or `error` on any thrown
failure; `finally` clears `isLoading`. -/
def generateRecipe (s : AppState) (env : Env) : RunResult :=
  let s1 := preNetworkState s
  let prompt := userQuery s.answers
  let t := fetchWithRetry env.outcomes env.rand 5
  let s2 :=
    match t.result with
    | .error msg => { s1 with error := some (failureBanner msg) }
    | .ok _ =>
      match validateResponse env.successBody with
      | .error msg => { s1 with error := some (failureBanner msg) }
      | .ok parsed => { s1 with recipe := some parsed }
  { state := { s2 with isLoading := false }, prompt := prompt, calls := t.calls }

/-- The submit path through the UI: the submit button is rendered with
`disabled={isLoading}`, so a submit reaches `generateRecipe` only when the
controller is not loading.  Returns the resulting state and the number of
network calls made. -/
def uiSubmit (s : AppState) (env : Env) : AppState × Nat :=
  if s.isLoading then (s, 0)
  else
    let r := generateRecipe s env
    (r.state, r.calls)

/-- Whether a run against `env` fails (transport exhaustion or validation
failure). -/
def pipelineFails (env : Env) : Bool :=
  match (fetchWithRetry env.outcomes env.rand 5).result with
  | .error _ => true
  | .ok _ =>
    match validateResponse env.successBody with
    | .error _ => true
    | .ok _ => false

/-- The spec's `RequestState` tagged variant. -/
inductive RequestState where
  | idle
  | loading
  | success (recipe : Json)
  | failure (message : String)

/-- Read the component's three slots as one `RequestState`, when they are
coherent: `none` exactly when the slots fit no variant (for example both a
recipe and an error present). -/
def toRequestState (s : AppState) : Option RequestState :=
  match s.isLoading, s.recipe, s.error with
  | true, none, none => some .loading
  | true, _, _ => none
  | false, some r, none => some (.success r)
  | false, none, some e => some (.failure e)
  | false, none, none => some .idle
  | false, some _, some _ => none

end ChefApp

/-! ## Spec-side definitions for refinement comparisons -/

/-- Modelled from the spec: the "structured JSON error envelope's message
field" — the body parses as JSON and `error.message` is present and truthy,
in which case the message (as interpolated) is returned. -/
def envelopeMessageOfJson (j : Json) : Option String :=
  match getMember j "error" with
  | .error _ => none
  | .ok none => none
  | .ok (some errVal) =>
    if truthy errVal then
      match getMember errVal "message" with
      | .error _ => none
      | .ok none => none
      | .ok (some msgVal) =>
        if truthy msgVal then some (jsToString msgVal) else none
    else none

/-- Modelled from the spec: the envelope message of a raw body text. -/
def envelopeMessage (bodyText : String) : Option String :=
  (jsonParse bodyText).bind envelopeMessageOfJson

/-! ## Transport lemmas -/

namespace ChefApp

/-- If every attempt in the window fails, the loop makes exactly one call per
iteration and ends with the exhaustion error carrying the last attempt's
message. -/
theorem fetchGo_allFail (o : Nat → AttemptOutcome) (rand : Nat → ℚ) (m : Nat) :
    ∀ (remaining i : Nat) (last : Option String),
      (∀ j, j < remaining → (attemptError (o (i + j))).isSome = true) →
      (fetchGo o rand m remaining i last).calls = remaining ∧
      (fetchGo o rand m remaining i last).result =
        .error (exhaustMsg m
          (if remaining = 0 then last else attemptError (o (i + remaining - 1)))) := by
  intro remaining
  induction remaining with
  | zero =>
    intro i last _
    simp [fetchGo]
  | succ k ih =>
    intro i last h
    have h0 : (attemptError (o i)).isSome = true := by
      simpa using h 0 (Nat.succ_pos k)
    obtain ⟨msg, hmsg⟩ := Option.isSome_iff_exists.mp h0
    have hrest := ih (i + 1) (some msg) (fun j hj => by
      have := h (j + 1) (Nat.succ_lt_succ hj)
      have harg : i + (j + 1) = i + 1 + j := by omega
      rwa [harg] at this)
    have harg :
        (if k = 0 then some msg else attemptError (o (i + 1 + k - 1))) =
          attemptError (o (i + (k + 1) - 1)) := by
      cases k with
      | zero => simpa using hmsg.symm
      | succ j =>
        have : i + 1 + (j + 1) - 1 = i + (j + 1 + 1) - 1 := by omega
        simp [this]
    rw [harg] at hrest
    simp only [fetchGo, hmsg]
    by_cases hcond : i < m - 1 <;>
      simp [hcond, hrest.1, hrest.2]

/-- Every recorded wait at position `k` (counting from the run's start at
attempt index `i`) is exactly `2^(i+k) * 1000 + rand (i+k) * 1000`
milliseconds. -/
theorem fetchGo_waits (o : Nat → AttemptOutcome) (rand : Nat → ℚ) (m : Nat) :
    ∀ (remaining i : Nat) (last : Option String) (k : Nat) (w : ℚ),
      i + remaining = m →
      (fetchGo o rand m remaining i last).waits.get? k = some w →
      w = 2 ^ (i + k) * 1000 + rand (i + k) * 1000 := by
  intro remaining
  induction remaining with
  | zero =>
    intro i last k w _ hw
    simp [fetchGo] at hw
  | succ r ih =>
    intro i last k w hm hw
    rcases hA : attemptError (o i) with _ | msg
    · simp [fetchGo, hA] at hw
    · by_cases hcond : i < m - 1
      · cases k with
        | zero =>
          simp [fetchGo, hA, hcond] at hw
          simpa using hw.symm
        | succ k2 =>
          simp only [fetchGo] at hw
          rw [hA] at hw
          simp only [hcond, if_true] at hw
          rw [List.get?_cons_succ] at hw
          have h2 := ih (i + 1) (some msg) k2 w (by omega) hw
          have harg : i + 1 + k2 = i + (k2 + 1) := by omega
          rwa [harg] at h2
      · have hr : r = 0 := by omega
        subst hr
        simp [fetchGo, hA, hcond] at hw

end ChefApp

/-! ## Concrete outcome and jitter streams used by witnesses -/

/-- Every fetch resolves with HTTP 400. -/
def all400 : Nat → AttemptOutcome := fun _ => .response 400 ""

/-- Every fetch resolves with HTTP 503. -/
def all503 : Nat → AttemptOutcome := fun _ => .response 503 ""

/-- Every fetch resolves with HTTP 500. -/
def all500 : Nat → AttemptOutcome := fun _ => .response 500 ""

/-- `Math.random()` always returns 0. -/
def rand0 : Nat → ℚ := fun _ => 0

/-- `Math.random()` always returns 1/2. -/
def randHalf : Nat → ℚ := fun _ => 1/2

/-- C1.  The claim says that a first attempt returning HTTP 400 leads to
exactly one network call and an immediately surfaced terminal error with no
backoff wait.  The code instead throws its dedicated bad-request error
*inside* the `try` block of `fetchWithRetry`, so its own `catch` swallows it
and retries: with every attempt returning 400, the run makes all 5 calls,
awaits 4 backoff delays, and ends in the retry-exhaustion error wrapping the
bad-request message. -/
theorem http400_retried_not_terminal :
    (ChefApp.fetchWithRetry all400 rand0 5).calls = 5 ∧
    (ChefApp.fetchWithRetry all400 rand0 5).waits = [1000, 2000, 4000, 8000] ∧
    (ChefApp.fetchWithRetry all400 rand0 5).result =
      .error "API call failed after 5 attempts: Bad Request: Invalid input to the API." := by
  refine ⟨by decide, ?_, rfl⟩
  simp only [ChefApp.fetchWithRetry, ChefApp.fetchGo, ChefApp.attemptError, all400,
    rand0, responseOk]
  norm_num

/-- C2.  If every one of the `maxRetries` attempts fails with some error,
`fetchWithRetry` makes exactly `maxRetries` fetch calls and then throws the
exhaustion error carrying the last underlying error's message. -/
theorem fetchWithRetry_exhausts_budget
    (o : Nat → AttemptOutcome) (rand : Nat → ℚ) (m : Nat) (hm : 0 < m)
    (hfail : ∀ j, j < m → (ChefApp.attemptError (o j)).isSome = true) :
    (ChefApp.fetchWithRetry o rand m).calls = m ∧
    ∃ msg, ChefApp.attemptError (o (m - 1)) = some msg ∧
      (ChefApp.fetchWithRetry o rand m).result =
        .error ("API call failed after " ++ toString m ++ " attempts: " ++ msg) := by
  have hall := ChefApp.fetchGo_allFail o rand m m 0 none (fun j hj => by
    simpa using hfail j hj)
  obtain ⟨msg, hmsg⟩ := Option.isSome_iff_exists.mp (hfail (m - 1) (by omega))
  have hm0 : m ≠ 0 := by omega
  refine ⟨hall.1, msg, hmsg, ?_⟩
  have := hall.2
  rw [ChefApp.fetchWithRetry]
  simp only [hm0, if_false] at this
  rw [this]
  simp [ChefApp.exhaustMsg, Nat.zero_add, hmsg]

/-- Concrete instantiation of `fetchWithRetry_exhausts_budget`: three
attempts all returning HTTP 503. -/
theorem fetchWithRetry_exhausts_budget_witness :
    (ChefApp.fetchWithRetry all503 rand0 3).calls = 3 ∧
    ∃ msg, ChefApp.attemptError (all503 (3 - 1)) = some msg ∧
      (ChefApp.fetchWithRetry all503 rand0 3).result =
        .error ("API call failed after " ++ toString 3 ++ " attempts: " ++ msg) :=
  fetchWithRetry_exhausts_budget all503 rand0 3 (by decide)
    (fun j _ => by
      show (ChefApp.attemptError (AttemptOutcome.response 503 "")).isSome = true
      decide)

/-- C5.  With every `Math.random()` value in `[0,1)`, the `k`-th backoff
wait of a `fetchWithRetry` run (the one inserted after failing attempt `k`,
in milliseconds) is at least `2^k * 1000` and less than `2^k * 1000 + 1000`
— i.e. at least `2^k` seconds plus a jitter bounded by one second — and the
jitter-excluded lower bound `2^k * 1000` is strictly increasing in `k`. -/
theorem backoff_wait_bounds
    (o : Nat → AttemptOutcome) (rand : Nat → ℚ) (m k : Nat) (w : ℚ)
    (hr : ∀ j, 0 ≤ rand j ∧ rand j < 1)
    (hw : (ChefApp.fetchWithRetry o rand m).waits.get? k = some w) :
    ((2 : ℚ) ^ k * 1000 ≤ w ∧ w < 2 ^ k * 1000 + 1000) ∧
    ((2 : ℚ) ^ k * 1000 < 2 ^ (k + 1) * 1000) := by
  have hval := ChefApp.fetchGo_waits o rand m m 0 none k w (Nat.zero_add m) hw
  rw [Nat.zero_add] at hval
  obtain ⟨hr0, hr1⟩ := hr k
  have hpow : (0 : ℚ) < 2 ^ k := by positivity
  constructor
  · constructor
    · nlinarith
    · nlinarith
  · have h2 : (2 : ℚ) ^ (k + 1) = 2 ^ k * 2 := pow_succ 2 k
    rw [h2]
    nlinarith

/-- Concrete instantiation of `backoff_wait_bounds`: all attempts fail with
HTTP 503, jitter 1/2, budget 3; the second recorded wait is 2500 ms. -/
theorem backoff_wait_bounds_witness :
    (((2 : ℚ) ^ 1 * 1000 ≤ 2500 ∧ (2500 : ℚ) < 2 ^ 1 * 1000 + 1000) ∧
      ((2 : ℚ) ^ 1 * 1000 < 2 ^ (1 + 1) * 1000)) := by
  have hW : (ChefApp.fetchWithRetry all503 randHalf 3).waits = [1500, 2500] := by
    simp only [ChefApp.fetchWithRetry, ChefApp.fetchGo, ChefApp.attemptError,
      all503, randHalf, responseOk]
    norm_num
  exact backoff_wait_bounds all503 randHalf 3 1 2500
    (fun _ => by constructor <;> norm_num [randHalf])
    (by rw [hW]; rfl)

/-! ## RequestBuilder claims -/

/-- C6.  For answers whose optional free-text fields are empty, the built
prompt is the template with the fixed default phrase substituted at each of
the three positions: each default phrase (itself non-empty) occurs inside
the prompt, and no interpolation gap is left empty. -/
theorem prompt_defaults_on_empty (a : ChefApp.Answers)
    (hi : a.ingredients = "") (ha : a.allergies = "") (hs : a.specialRequest = "") :
    ChefApp.userQuery a =
      ChefApp.queryHead ++ ChefApp.ingredientsDefault ++ ChefApp.queryDiet ++
      ChefApp.dietPhrase a ++ ChefApp.queryFat1 ++ a.fatType ++ ChefApp.queryFat2 ++
      ChefApp.allergiesDefault ++ ChefApp.querySpecial ++
      ChefApp.specialRequestDefault ++ ChefApp.queryTail ∧
    (ChefApp.ingredientsDefault.data <:+: (ChefApp.userQuery a).data) ∧
    (ChefApp.allergiesDefault.data <:+: (ChefApp.userQuery a).data) ∧
    (ChefApp.specialRequestDefault.data <:+: (ChefApp.userQuery a).data) ∧
    ChefApp.ingredientsDefault ≠ "" ∧ ChefApp.allergiesDefault ≠ "" ∧
    ChefApp.specialRequestDefault ≠ "" := by
  have hq : ChefApp.userQuery a =
      ChefApp.queryHead ++ ChefApp.ingredientsDefault ++ ChefApp.queryDiet ++
      ChefApp.dietPhrase a ++ ChefApp.queryFat1 ++ a.fatType ++ ChefApp.queryFat2 ++
      ChefApp.allergiesDefault ++ ChefApp.querySpecial ++
      ChefApp.specialRequestDefault ++ ChefApp.queryTail := by
    simp [ChefApp.userQuery, ChefApp.orDefault, hi, ha, hs]
  refine ⟨hq, ?_, ?_, ?_, by decide, by decide, by decide⟩
  · rw [hq]
    refine ⟨ChefApp.queryHead.data,
      (ChefApp.queryDiet ++ ChefApp.dietPhrase a ++ ChefApp.queryFat1 ++ a.fatType ++
        ChefApp.queryFat2 ++ ChefApp.allergiesDefault ++ ChefApp.querySpecial ++
        ChefApp.specialRequestDefault ++ ChefApp.queryTail).data, ?_⟩
    simp [String.data_append]
  · rw [hq]
    refine ⟨(ChefApp.queryHead ++ ChefApp.ingredientsDefault ++ ChefApp.queryDiet ++
        ChefApp.dietPhrase a ++ ChefApp.queryFat1 ++ a.fatType ++ ChefApp.queryFat2).data,
      (ChefApp.querySpecial ++ ChefApp.specialRequestDefault ++ ChefApp.queryTail).data, ?_⟩
    simp [String.data_append]
  · rw [hq]
    refine ⟨(ChefApp.queryHead ++ ChefApp.ingredientsDefault ++ ChefApp.queryDiet ++
        ChefApp.dietPhrase a ++ ChefApp.queryFat1 ++ a.fatType ++ ChefApp.queryFat2 ++
        ChefApp.allergiesDefault ++ ChefApp.querySpecial).data,
      ChefApp.queryTail.data, ?_⟩
    simp [String.data_append]

/-- The initial `useState` answers: empty optional fields, `veg`, `oil`. -/
def emptyAnswers : ChefApp.Answers := ⟨"", "veg", "oil", "", ""⟩

/-- Concrete instantiation of `prompt_defaults_on_empty` at the initial
answers. -/
theorem prompt_defaults_on_empty_witness :
    ChefApp.userQuery emptyAnswers =
      ChefApp.queryHead ++ ChefApp.ingredientsDefault ++ ChefApp.queryDiet ++
      ChefApp.dietPhrase emptyAnswers ++ ChefApp.queryFat1 ++ emptyAnswers.fatType ++
      ChefApp.queryFat2 ++ ChefApp.allergiesDefault ++ ChefApp.querySpecial ++
      ChefApp.specialRequestDefault ++ ChefApp.queryTail ∧
    (ChefApp.ingredientsDefault.data <:+: (ChefApp.userQuery emptyAnswers).data) ∧
    (ChefApp.allergiesDefault.data <:+: (ChefApp.userQuery emptyAnswers).data) ∧
    (ChefApp.specialRequestDefault.data <:+: (ChefApp.userQuery emptyAnswers).data) ∧
    ChefApp.ingredientsDefault ≠ "" ∧ ChefApp.allergiesDefault ≠ "" ∧
    ChefApp.specialRequestDefault ≠ "" :=
  prompt_defaults_on_empty emptyAnswers rfl rfl rfl

/-! ## ResponseValidator claims -/

/-- A payload with a truthy `recipeName`, an *empty* `ingredients` array, and
no `instructions` or `prepTimeMinutes` at all. -/
def partialPayload : Json :=
  .obj [("recipeName", .str "X"), ("ingredients", .arr [])]

/-- C3 counterexample.  The claim says a payload is accepted as a Recipe only
if all four required fields are present, `ingredients`/`instructions` are
non-empty string sequences and `prepTimeMinutes` is a positive integer.  The
code's check accepts `partialPayload`, which has an empty `ingredients`
array and lacks `instructions` and `prepTimeMinutes` entirely. -/
theorem validator_accepts_partial_payload :
    ChefApp.validateParsed partialPayload = .ok partialPayload ∧
    Json.field? partialPayload "instructions" = none ∧
    Json.field? partialPayload "prepTimeMinutes" = none ∧
    Json.field? partialPayload "ingredients" = some (.arr []) :=
  ⟨rfl, rfl, rfl, rfl⟩

/-- C3 amended.  The check actually performed by `generateRecipe` accepts a
parsed payload iff `parsedRecipe.recipeName` is truthy and
`parsedRecipe.ingredients` is an array (of any length, any element types);
no other field is inspected.  Acceptance is still all-or-nothing: the
accepted value is the entire parsed payload, unmodified, and every rejected
payload yields an error, never a partial recipe. -/
theorem validateParsed_characterization (p : Json) :
    (∀ r, ChefApp.validateParsed p = .ok r →
      r = p ∧ (Json.field? p "recipeName").elim false truthy = true ∧
        ChefApp.jsIsArray (Json.field? p "ingredients") = true) ∧
    ((Json.field? p "recipeName").elim false truthy = true →
      ChefApp.jsIsArray (Json.field? p "ingredients") = true →
      ChefApp.validateParsed p = .ok p) := by
  constructor
  · intro r hr
    rcases p with _ | b | n | s | xs | fs
    · simp [ChefApp.validateParsed, getMember] at hr
    · simp [ChefApp.validateParsed, getMember] at hr
    · simp [ChefApp.validateParsed, getMember] at hr
    · simp [ChefApp.validateParsed, getMember] at hr
    · simp [ChefApp.validateParsed, getMember] at hr
    · by_cases hA : (lookupField fs "recipeName").elim false truthy = true
      · by_cases hB : ChefApp.jsIsArray (lookupField fs "ingredients") = true
        · have hok : ChefApp.validateParsed (Json.obj fs) = .ok (Json.obj fs) := by
            simp [ChefApp.validateParsed, getMember, hA, hB]
          rw [hok] at hr
          refine ⟨(Except.ok.inj hr).symm, ?_, ?_⟩
          · simpa [Json.field?] using hA
          · simpa [Json.field?] using hB
        · have herr : ChefApp.validateParsed (Json.obj fs) = .error ChefApp.missingCoreMsg := by
            simp [ChefApp.validateParsed, getMember, hA, hB]
          rw [herr] at hr
          exact Except.noConfusion hr
      · have herr : ChefApp.validateParsed (Json.obj fs) = .error ChefApp.missingCoreMsg := by
          simp [ChefApp.validateParsed, getMember, hA]
        rw [herr] at hr
        exact Except.noConfusion hr
  · intro h1 h2
    rcases p with _ | b | n | s | xs | fs
    · simp [Json.field?] at h1
    · simp [Json.field?] at h1
    · simp [Json.field?] at h1
    · simp [Json.field?] at h1
    · simp [Json.field?] at h1
    · simp only [Json.field?] at h1 h2
      simp [ChefApp.validateParsed, getMember, h1, h2]

/-- A complete, well-formed recipe payload. -/
def fullPayload : Json :=
  .obj [("recipeName", .str "Stir Fry"), ("description", .str "d"),
        ("ingredients", .arr [.str "1 cup rice"]),
        ("instructions", .arr [.str "cook"]),
        ("prepTimeMinutes", .num 20)]

/-- Concrete instantiation of `validateParsed_characterization`: the full
payload passes both checks and is accepted whole. -/
theorem validateParsed_characterization_witness :
    ChefApp.validateParsed fullPayload = .ok fullPayload :=
  (validateParsed_characterization fullPayload).2 (by decide) (by decide)

/-- C8.  Whenever the nested text path
`result.candidates?.[0]?.content?.parts?.[0]?.text` is absent (the optional
chain yields `undefined`), the validation stage raises the
malformed-response error — the envelope's own `error.message` when truthy,
otherwise the fixed malformed-response text — and never proceeds to JSON
parsing or returns a recipe. -/
theorem missing_text_path_fails (j : Json)
    (h : ChefApp.candidatesTextPath j = .ok none) :
    ChefApp.validateResponse j = .error (ChefApp.malformedMessage j) ∧
    ∀ r, ChefApp.validateResponse j ≠ .ok r := by
  refine ⟨by simp [ChefApp.validateResponse, h], ?_⟩
  intro r hr
  simp [ChefApp.validateResponse, h] at hr

/-- An envelope with no `candidates` at all. -/
def emptyEnvelope : Json := .obj []

/-- Concrete instantiation of `missing_text_path_fails` at an envelope with
no `candidates` field. -/
theorem missing_text_path_fails_witness :
    ChefApp.validateResponse emptyEnvelope = .error (ChefApp.malformedMessage emptyEnvelope) ∧
    ∀ r, ChefApp.validateResponse emptyEnvelope ≠ .ok r :=
  missing_text_path_fails emptyEnvelope rfl

/-! ## GenerationController claims -/

/-- C9.  After every completed `generateRecipe` run, `isLoading` is false,
the success slot and the failure slot are never both non-null, and the slots
read back as exactly one tagged `RequestState` — always a `success` or a
`failure`. -/
theorem completed_run_state_wellformed (s : ChefApp.AppState) (env : ChefApp.Env) :
    (ChefApp.generateRecipe s env).state.isLoading = false ∧
    ¬((ChefApp.generateRecipe s env).state.recipe.isSome = true ∧
      (ChefApp.generateRecipe s env).state.error.isSome = true) ∧
    ((∃ r, ChefApp.toRequestState (ChefApp.generateRecipe s env).state =
        some (.success r)) ∨
      (∃ e, ChefApp.toRequestState (ChefApp.generateRecipe s env).state =
        some (.failure e))) := by
  rcases htr : (ChefApp.fetchWithRetry env.outcomes env.rand 5).result with msg | out
  · refine ⟨?_, ?_, Or.inr ⟨ChefApp.failureBanner msg, ?_⟩⟩ <;>
      simp [ChefApp.generateRecipe, ChefApp.preNetworkState, htr, ChefApp.toRequestState]
  · rcases hv : ChefApp.validateResponse env.successBody with msg | parsed
    · refine ⟨?_, ?_, Or.inr ⟨ChefApp.failureBanner msg, ?_⟩⟩ <;>
        simp [ChefApp.generateRecipe, ChefApp.preNetworkState, htr, hv, ChefApp.toRequestState]
    · refine ⟨?_, ?_, Or.inl ⟨parsed, ?_⟩⟩ <;>
        simp [ChefApp.generateRecipe, ChefApp.preNetworkState, htr, hv, ChefApp.toRequestState]

/-- C10.  Every run starts from the cleared state (`recipe` and `error` both
null, `isLoading` set) before any network activity, and when the pipeline
fails the completed state is a `failure` with no recipe — whatever recipe or
error the pre-submit state held is gone, so the state after an error is
never the pre-submit success state. -/
theorem failed_run_clears_previous (s : ChefApp.AppState) (env : ChefApp.Env)
    (h : ChefApp.pipelineFails env = true) :
    (ChefApp.preNetworkState s).recipe = none ∧
    (ChefApp.preNetworkState s).error = none ∧
    (ChefApp.preNetworkState s).isLoading = true ∧
    (ChefApp.generateRecipe s env).state.recipe = none ∧
    (∃ e, (ChefApp.generateRecipe s env).state.error = some e) ∧
    (∃ e, ChefApp.toRequestState (ChefApp.generateRecipe s env).state =
      some (.failure e)) := by
  refine ⟨rfl, rfl, rfl, ?_⟩
  rcases htr : (ChefApp.fetchWithRetry env.outcomes env.rand 5).result with msg | out
  · refine ⟨?_, ⟨ChefApp.failureBanner msg, ?_⟩, ⟨ChefApp.failureBanner msg, ?_⟩⟩ <;>
      simp [ChefApp.generateRecipe, ChefApp.preNetworkState, htr, ChefApp.toRequestState]
  · rcases hv : ChefApp.validateResponse env.successBody with msg | parsed
    · refine ⟨?_, ⟨ChefApp.failureBanner msg, ?_⟩, ⟨ChefApp.failureBanner msg, ?_⟩⟩ <;>
        simp [ChefApp.generateRecipe, ChefApp.preNetworkState, htr, hv, ChefApp.toRequestState]
    · exfalso
      simp [ChefApp.pipelineFails, htr, hv] at h

/-- A state mid-flight: the controller is Loading and holds a previously
displayed recipe in no slot. -/
def loadingState : ChefApp.AppState :=
  { answers := emptyAnswers, recipe := none, isLoading := true, error := none }

/-- A pre-submit state still displaying an earlier successful recipe. -/
def displayedState : ChefApp.AppState :=
  { answers := emptyAnswers, recipe := some fullPayload, isLoading := false,
    error := none }

/-- An environment in which every fetch attempt returns HTTP 500. -/
def env500 : ChefApp.Env :=
  { outcomes := all500, rand := rand0, successBody := Json.obj [] }

/-- Concrete instantiation of `failed_run_clears_previous`: a failing run
started from a state still displaying an earlier recipe. -/
theorem failed_run_clears_previous_witness :
    (ChefApp.preNetworkState displayedState).recipe = none ∧
    (ChefApp.preNetworkState displayedState).error = none ∧
    (ChefApp.preNetworkState displayedState).isLoading = true ∧
    (ChefApp.generateRecipe displayedState env500).state.recipe = none ∧
    (∃ e, (ChefApp.generateRecipe displayedState env500).state.error = some e) ∧
    (∃ e, ChefApp.toRequestState (ChefApp.generateRecipe displayedState env500).state =
      some (.failure e)) :=
  failed_run_clears_previous displayedState env500 (by decide)

/-- C4 counterexample.  The claim says a submit arriving while the state is
Loading starts no second pipeline execution, enforced inside the controller.
`generateRecipe` has no Loading guard: invoked on a Loading state it still
executes the pipeline, here making all 5 network calls. -/
theorem submit_while_loading_starts_pipeline :
    loadingState.isLoading = true ∧
    (ChefApp.generateRecipe loadingState env500).calls = 5 := by
  exact ⟨rfl, by decide⟩

/-- C4 amended.  Single-flight is enforced only by the presentation layer:
the submit button is disabled while `isLoading`, so the UI path is a no-op
(state unchanged, zero network calls) during Loading, while the controller
function itself performs exactly the same network calls whether or not the
state is Loading. -/
theorem single_flight_only_in_ui (s : ChefApp.AppState) (env : ChefApp.Env)
    (h : s.isLoading = true) :
    ChefApp.uiSubmit s env = (s, 0) ∧
    (ChefApp.generateRecipe s env).calls =
      (ChefApp.generateRecipe { s with isLoading := false } env).calls := by
  constructor
  · simp [ChefApp.uiSubmit, h]
  · simp [ChefApp.generateRecipe]

/-- Concrete instantiation of `single_flight_only_in_ui` at a Loading
state. -/
theorem single_flight_only_in_ui_witness :
    ChefApp.uiSubmit loadingState env500 = (loadingState, 0) ∧
    (ChefApp.generateRecipe loadingState env500).calls =
      (ChefApp.generateRecipe { loadingState with isLoading := false } env500).calls :=
  single_flight_only_in_ui loadingState env500 rfl

/-! ## Diagnostic-extraction claims -/

/-- `getMember` throws only on `null`. -/
theorem getMember_error_imp_null (j : Json) (k : String) (e : Unit)
    (h : getMember j k = .error e) : j = Json.null := by
  cases j <;> simp [getMember] at h ⊢

/-- A body that is valid JSON but carries no error envelope. -/
def nonEnvelopeBody : String := "\x7b\"a\":1\x7d"

/-- C7 counterexample.  The claim says that with no envelope message and a
non-empty body, the raised message is built from the raw body text.  On the
body `\x7b"a":1\x7d` (valid JSON, no `error.message`), the code instead
keeps the generic status message: the raw-text fallback runs only from the
`catch` of a failed `JSON.parse`. -/
theorem diagnostic_ignores_unstructured_json_body :
    nonEnvelopeBody ≠ "" ∧
    envelopeMessage nonEnvelopeBody = none ∧
    Part000.attemptErrorMessage 500 nonEnvelopeBody = "HTTP error! status: 500" ∧
    Part000.attemptErrorMessage 500 nonEnvelopeBody ≠
      "API Error: " ++ nonEnvelopeBody ++ " (500)" := by
  refine ⟨by decide, rfl, rfl, by decide⟩

/-- C7 amended.  The diagnostic message for a non-success response is
extracted in this priority order: the envelope's truthy `error.message` when
the body parses as JSON and carries one; otherwise, when the body parses as
JSON (to a non-`null` value), the generic message naming the HTTP status —
even if the body text is non-empty; the raw body text is used only when
`JSON.parse` throws (or the parsed value is `null`, making the member access
throw) and the body is non-empty; an empty body yields the generic
message. -/
theorem attemptErrorMessage_characterization (status : Nat) (body : String) :
    (jsonParse body = none → body ≠ "" →
      Part000.attemptErrorMessage status body =
        "API Error: " ++ body ++ " (" ++ toString status ++ ")") ∧
    (jsonParse body = none → body = "" →
      Part000.attemptErrorMessage status body = Part000.genericMessage status) ∧
    (∀ j, jsonParse body = some j → j ≠ Json.null →
      envelopeMessageOfJson j = none →
      Part000.attemptErrorMessage status body = Part000.genericMessage status) ∧
    (∀ j m, jsonParse body = some j → envelopeMessageOfJson j = some m →
      Part000.attemptErrorMessage status body =
        "API Error: " ++ m ++ " (" ++ toString status ++ ")") ∧
    (jsonParse body = some Json.null → body ≠ "" →
      Part000.attemptErrorMessage status body =
        "API Error: " ++ body ++ " (" ++ toString status ++ ")") := by
  refine ⟨?_, ?_, ?_, ?_, ?_⟩
  · intro h hb
    simp [Part000.attemptErrorMessage, Part000.textFallback, h, hb]
  · intro h hb
    subst hb
    simp [Part000.attemptErrorMessage, Part000.textFallback, h]
  · intro j hj hnull henv
    simp only [Part000.attemptErrorMessage, hj]
    rcases hm : getMember j "error" with e | o
    · exact absurd (getMember_error_imp_null j "error" e hm) hnull
    · rcases o with _ | errVal
      · rfl
      · by_cases ht : truthy errVal = true
        · rcases hmm : getMember errVal "message" with e2 | o2
          · have : errVal = Json.null := getMember_error_imp_null errVal "message" e2 hmm
            rw [this] at ht
            simp [truthy] at ht
          · rcases o2 with _ | msgVal
            · simp [ht, hmm]
            · by_cases ht2 : truthy msgVal = true
              · exfalso
                simp [envelopeMessageOfJson, hm, ht, hmm, ht2] at henv
              · simp only [Bool.not_eq_true] at ht2
                simp [ht, hmm, ht2]
        · simp only [Bool.not_eq_true] at ht
          simp [ht]
  · intro j m hj henv
    simp only [Part000.attemptErrorMessage, hj]
    rcases hm : getMember j "error" with e | o
    · simp [envelopeMessageOfJson, hm] at henv
    · rcases o with _ | errVal
      · simp [envelopeMessageOfJson, hm] at henv
      · by_cases ht : truthy errVal = true
        · rcases hmm : getMember errVal "message" with e2 | o2
          · simp [envelopeMessageOfJson, hm, ht, hmm] at henv
          · rcases o2 with _ | msgVal
            · simp [envelopeMessageOfJson, hm, ht, hmm] at henv
            · by_cases ht2 : truthy msgVal = true
              · have hmv : m = jsToString msgVal := by
                  simp [envelopeMessageOfJson, hm, ht, hmm, ht2] at henv
                  exact henv.symm
                simp [ht, hmm, ht2, hmv]
              · simp only [Bool.not_eq_true] at ht2
                simp [envelopeMessageOfJson, hm, ht, hmm, ht2] at henv
        · simp only [Bool.not_eq_true] at ht
          simp [envelopeMessageOfJson, hm, ht] at henv
  · intro hj hb
    simp [Part000.attemptErrorMessage, Part000.textFallback, hj, hb, getMember]

/-- A body carrying a structured error envelope. -/
def envelopeBody : String := "\x7b\"error\":\x7b\"message\":\"quota\"\x7d\x7d"

/-- Concrete instantiation of `attemptErrorMessage_characterization`: a 404
with an envelope body yields the envelope message. -/
theorem attemptErrorMessage_characterization_witness :
    Part000.attemptErrorMessage 404 envelopeBody =
      "API Error: " ++ "quota" ++ " (" ++ toString 404 ++ ")" :=
  (attemptErrorMessage_characterization 404 envelopeBody).2.2.2.1
    (Json.obj [("error", Json.obj [("message", Json.str "quota")])]) "quota"
    rfl
    (by simp [envelopeMessageOfJson, getMember, lookupField, truthy, jsToString])
